import Mathlib

/-!
Shallow embedding of the VaultPilot WebSocket connection-and-broadcast
manager (`src/evoagentx_integration/websocket_handler.py`, class
`WebSocketManager` and the module-level endpoint/handler functions).

Modelling choices, all taken from the source:
* A websocket object is identified by a natural number; Python's
  `id(websocket)` is the identity function on that number (CPython ids are
  injective on live objects, and the code uses `id` only as a dictionary key
  for the very websocket it stores).
* Python dicts become association lists (`dLookup` / `dSet` / `dDel`);
  `dSet` replaces the first binding in place (Python dicts keep insertion
  order and overwrite in place), `dDel` removes the key.  Python sets of
  websockets become duplicate-free lists (`sAdd` / `sDiscard`).
* JSON-like values become `JVal`; a decoded message dict is an association
  list `Msg` from string keys to `JVal`.
* `datetime.now()` becomes an explicit `now : Nat` argument;
  `isoformat` becomes an abstract rendering `isoTimestamp : Nat → String`.
  `current_time - last_ping > timedelta(seconds=60)` becomes truncated
  natural subtraction, which agrees with the Python comparison whenever the
  clock does not go backwards (and also when it does: a non-positive
  timedelta is never `> 60 s`, and `Nat` subtraction gives `0 > 60`, also
  false).
* `await websocket.send_text(...)` can raise; the transport is modelled by
  an oracle `ok : Nat → Bool` saying whether the send to a given websocket
  succeeds.  Every `try/except` of the source is modelled by branching on
  the oracle; a function that catches every exception is a total Lean
  function.
* Each effectful operation returns, besides the new registry state, the
  list of transmissions `(websocket, payload)` that actually went out on
  the wire.
-/

namespace VPWS

/-- JSON-like values carried in message payloads. -/
inductive JVal where
  | s (v : String)
  | n (v : Nat)
  | b (v : Bool)
  | obj (fields : List (String × JVal))
  | arr (items : List JVal)
  | null

/-- A decoded message dict: string keys to JSON-like values. -/
abbrev Msg := List (String × JVal)

/-- One transmission on the wire: target websocket and the payload sent. -/
abbrev Tx := Nat × Msg

/-! ### Python dict / set primitives -/

/-- Python `d.get(k)` / `k in d`: value at the first binding of `k`. -/
def dLookup {α β : Type} [DecidableEq α] : List (α × β) → α → Option β
  | [], _ => none
  | (k, v) :: rest, a => if k = a then some v else dLookup rest a

/-- Python `d[k] = v`: overwrite the first binding in place, else append. -/
def dSet {α β : Type} [DecidableEq α] : List (α × β) → α → β → List (α × β)
  | [], a, b => [(a, b)]
  | (k, v) :: rest, a, b => if k = a then (a, b) :: rest else (k, v) :: dSet rest a b

/-- Python `del d[k]`: remove the binding of `k`. -/
def dDel {α β : Type} [DecidableEq α] : List (α × β) → α → List (α × β)
  | [], _ => []
  | (k, v) :: rest, a => if k = a then dDel rest a else (k, v) :: dDel rest a

/-- Python `s.add(x)` on a set of websockets. -/
def sAdd (l : List Nat) (x : Nat) : List Nat :=
  if x ∈ l then l else l ++ [x]

/-- Python `s.discard(x)` on a set of websockets. -/
def sDiscard (l : List Nat) (x : Nat) : List Nat :=
  l.filter (fun y => y ≠ x)

/-! ### Registry state -/

/-- One entry of `self.connection_metadata` (the `"websocket"` field stores
the websocket object itself; the dict key is `id(websocket)`). -/
structure ConnMeta where
  vault_id : String
  user_id : Option String
  connected_at : Nat
  last_ping : Nat
  websocket : Nat
  deriving DecidableEq, Repr

/-- The mutable state of `WebSocketManager`: `self.connections`,
`self.user_sessions` and `self.connection_metadata`. -/
@[ext] structure WSState where
  connections : List (String × List Nat)
  user_sessions : List (String × String)
  connection_metadata : List (Nat × ConnMeta)
  deriving DecidableEq, Repr

/-- Fresh manager: all three dicts empty. -/
def initState : WSState := ⟨[], [], []⟩

/-- The connection set of a vault (`self.connections.get(vault_id, set())`). -/
def getList (st : WSState) (v : String) : List Nat :=
  (dLookup st.connections v).getD []

/-- `self.heartbeat_interval = 30`. -/
def heartbeat_interval : Nat := 30

/-- `self.heartbeat_timeout = 60`. -/
def heartbeat_timeout : Nat := 60

/-- Abstract rendering of `datetime.now().isoformat()`. -/
def isoTimestamp (t : Nat) : String := toString t

/-! ### Core operations -/

/-- `disconnect`: remove from the vault group (deleting the group if now
empty), drop the user session if a user id was supplied, drop the
connection metadata.  Every removal is guarded, so the operation never
raises. -/
def disconnect (st : WSState) (ws : Nat) (vault_id : String) (user_id : Option String) :
    WSState :=
  let conns :=
    match dLookup st.connections vault_id with
    | some s =>
      let s2 := sDiscard s ws
      if s2.isEmpty then dDel st.connections vault_id
      else dSet st.connections vault_id s2
    | none => st.connections
  let sessions :=
    match user_id with
    | some u => if (dLookup st.user_sessions u).isSome then dDel st.user_sessions u
                else st.user_sessions
    | none => st.user_sessions
  let meta :=
    if (dLookup st.connection_metadata ws).isSome then dDel st.connection_metadata ws
    else st.connection_metadata
  ⟨conns, sessions, meta⟩

/-- The `formatted_message` built by `send_to_connection`: the uniform
outbound envelope `type` / `data` / `timestamp`. -/
def envelope (message : Msg) (now : Nat) : Msg :=
  [("type", (dLookup message "type").getD (.s "message")),
   ("data", (dLookup message "data").getD (.obj [])),
   ("timestamp", .s (isoTimestamp now))]

/-- `send_to_connection`: wrap the message in the envelope and send it.  On
success, update `last_ping` of the tracked connection.  If `send_text`
raises (`ok ws = false`), the `except` branch disconnects the connection
when it is tracked; the exception never escapes, so the function is total
and produces no transmission in that case. -/
def send_to_connection (st : WSState) (ws : Nat) (message : Msg) (now : Nat)
    (ok : Nat → Bool) : WSState × List Tx :=
  if ok ws then
    let st2 :=
      match dLookup st.connection_metadata ws with
      | some m =>
        let m2 := { m with last_ping := now }
        { st with connection_metadata := dSet st.connection_metadata ws m2 }
      | none => st
    (st2, [(ws, envelope message now)])
  else
    match dLookup st.connection_metadata ws with
    | some m => (disconnect st ws m.vault_id m.user_id, [])
    | none => (st, [])

/-- The welcome message sent by `connect` (type `connection`). -/
def welcomeMsg (vault_id : String) (ws now : Nat) : Msg :=
  [("type", .s "connection"),
   ("data", .obj
     [("status", .s "connected"),
      ("vault_id", .s vault_id),
      ("connection_id", .n ws),
      ("heartbeat_interval", .n heartbeat_interval),
      ("timestamp", .s (isoTimestamp now))])]

/-- `connect`: create the vault group if absent, add the websocket, record
metadata, overwrite the user session if a user id was supplied, then send
the welcome message.  (`websocket.accept()` and the lazy start of the
heartbeat task are transport/scheduler concerns with no registry effect.) -/
def connect (st : WSState) (ws : Nat) (vault_id : String) (user_id : Option String)
    (now : Nat) (ok : Nat → Bool) : WSState × List Tx :=
  let conns1 :=
    if (dLookup st.connections vault_id).isSome then st.connections
    else dSet st.connections vault_id []
  let conns2 := dSet conns1 vault_id (sAdd ((dLookup conns1 vault_id).getD []) ws)
  let meta := dSet st.connection_metadata ws
    ⟨vault_id, user_id, now, now, ws⟩
  let sessions :=
    match user_id with
    | some u => dSet st.user_sessions u vault_id
    | none => st.user_sessions
  send_to_connection ⟨conns2, sessions, meta⟩ ws (welcomeMsg vault_id ws now) now ok

/-- The `for websocket in connections:` loop body of `broadcast_to_vault`.
Its own `except` branch is unreachable because `send_to_connection` catches
every exception itself; eviction of a dead connection happens inside
`send_to_connection`. -/
def broadcastLoop (st : WSState) (snapshot : List Nat) (message : Msg) (now : Nat)
    (ok : Nat → Bool) : WSState × List Tx :=
  match snapshot with
  | [] => (st, [])
  | ws :: rest =>
    let r := send_to_connection st ws message now ok
    let r2 := broadcastLoop r.1 rest message now ok
    (r2.1, r.2 ++ r2.2)

/-- `broadcast_to_vault`: no-op when the vault is unknown; otherwise iterate
over `list(self.connections[vault_id])`, a snapshot taken at call time. -/
def broadcast_to_vault (st : WSState) (vault_id : String) (message : Msg) (now : Nat)
    (ok : Nat → Bool) : WSState × List Tx :=
  match dLookup st.connections vault_id with
  | none => (st, [])
  | some s => broadcastLoop st s message now ok

/-- `broadcast_to_user`: resolve the user session, then broadcast to that
vault; no-op when the user has no session. -/
def broadcast_to_user (st : WSState) (user_id : String) (message : Msg) (now : Nat)
    (ok : Nat → Bool) : WSState × List Tx :=
  match dLookup st.user_sessions user_id with
  | none => (st, [])
  | some v => broadcast_to_vault st v message now ok

/-- The `for vault_id in list(self.connections.keys())` loop of
`broadcast_to_all`. -/
def broadcastAllLoop (st : WSState) (vaults : List String) (message : Msg) (now : Nat)
    (ok : Nat → Bool) : WSState × List Tx :=
  match vaults with
  | [] => (st, [])
  | v :: rest =>
    let r := broadcast_to_vault st v message now ok
    let r2 := broadcastAllLoop r.1 rest message now ok
    (r2.1, r.2 ++ r2.2)

/-- `broadcast_to_all`: broadcast to every currently known vault. -/
def broadcast_to_all (st : WSState) (message : Msg) (now : Nat) (ok : Nat → Bool) :
    WSState × List Tx :=
  broadcastAllLoop st (st.connections.map Prod.fst) message now ok

/-- The error notification dict built by `send_error`. -/
def errorMsg (error_message : String) (now : Nat) : Msg :=
  [("type", .s "error"),
   ("data", .obj
     [("message", .s error_message),
      ("timestamp", .s (isoTimestamp now))])]

/-- `send_error`: broadcast an error notification to a whole vault. -/
def send_error (st : WSState) (vault_id : String) (error_message : String) (now : Nat)
    (ok : Nat → Bool) : WSState × List Tx :=
  broadcast_to_vault st vault_id (errorMsg error_message now) now ok

/-- `send_vault_sync`: broadcast a `vault_sync` event to a vault. -/
def send_vault_sync (st : WSState) (vault_id : String) (sync_data : JVal) (now : Nat)
    (ok : Nat → Bool) : WSState × List Tx :=
  broadcast_to_vault st vault_id [("type", .s "vault_sync"), ("data", sync_data)] now ok

/-- `get_connection_count`: size of one vault group, or the total. -/
def get_connection_count (st : WSState) (vault_id : Option String) : Nat :=
  match vault_id with
  | some v => ((dLookup st.connections v).getD []).length
  | none => (st.connections.map (fun p => p.2.length)).sum

/-- `get_active_vaults`: the list of vault keys of `self.connections`. -/
def get_active_vaults (st : WSState) : List String :=
  st.connections.map Prod.fst

/-! ### Heartbeat monitor

One cycle of `_heartbeat_monitor` after the sleep: scan
`self.connection_metadata.items()`, mark stale connections, heartbeat the
rest, then clean up the marked ones.  CPython dict iteration raises
`RuntimeError` at the next iterator step (including the final, would-be
`StopIteration` step) whenever the dict's size has changed since the
iterator was created; the only mutations possible during this scan are
deletions (by `disconnect` inside a failed `send_to_connection`), which
shrink the dict, and `last_ping` overwrites of already-yielded entries,
which keep size and order.  The loop below therefore walks the entry list
read at loop entry and guards every step with the size check. -/

/-- The message text of the `RuntimeError` raised by CPython when a dict
changes size while being iterated. -/
def dictChangedMsg : String := "RuntimeError: dictionary changed size during iteration"

/-- The staleness test of the monitor:
`current_time - last_ping > timedelta(seconds=self.heartbeat_timeout)`. -/
def isStale (now last_ping : Nat) : Bool :=
  decide (now - last_ping > heartbeat_timeout)

/-- The heartbeat event sent to one live connection. -/
def heartbeatMsg (now cid : Nat) : Msg :=
  [("type", .s "heartbeat"),
   ("data", .obj
     [("timestamp", .s (isoTimestamp now)),
      ("connection_id", .n cid)])]

/-- The `for connection_id, metadata in self.connection_metadata.items():`
scan.  `size0` is the dict size when the iterator was created; a mismatch
models the `RuntimeError`, which aborts the scan (it is caught only by the
monitor's outer `except`, after the cleanup loop).  Returns the error (if
any), the state, the transmissions, and the `dead_connections` list. -/
def heartbeatScanLoop (items : List (Nat × ConnMeta)) (size0 : Nat) (st : WSState)
    (now : Nat) (ok : Nat → Bool) (dead : List (Nat × String × Option String))
    (txs : List Tx) :
    Option String × WSState × List Tx × List (Nat × String × Option String) :=
  match items with
  | [] =>
    if st.connection_metadata.length ≠ size0 then (some dictChangedMsg, st, txs, dead)
    else (none, st, txs, dead)
  | (cid, m) :: rest =>
    if st.connection_metadata.length ≠ size0 then (some dictChangedMsg, st, txs, dead)
    else if isStale now m.last_ping then
      heartbeatScanLoop rest size0 st now ok
        (dead ++ [(m.websocket, m.vault_id, m.user_id)]) txs
    else
      let r := send_to_connection st m.websocket (heartbeatMsg now cid) now ok
      heartbeatScanLoop rest size0 r.1 now ok dead (txs ++ r.2)

/-- One monitor cycle body (between two sleeps): the scan followed — only
when the scan finished without raising — by the cleanup loop disconnecting
every marked connection.  A raised `RuntimeError` skips the cleanup and is
caught by the monitor's outer `except`, which logs and backs off. -/
def heartbeatScan (st : WSState) (now : Nat) (ok : Nat → Bool) :
    Option String × WSState × List Tx :=
  match heartbeatScanLoop st.connection_metadata st.connection_metadata.length
      st now ok [] [] with
  | (some e, st2, txs, _) => (some e, st2, txs)
  | (none, st2, txs, dead) =>
    (none, dead.foldl (fun s d => disconnect s d.1 d.2.1 d.2.2) st2, txs)

/-! ### Inbound message handling -/

/-- Python `str(...)` applied to the message type in the f-string of the
unknown-type error.  Rendering of non-string values is abstracted; every
claim concerns string-typed `type` fields. -/
def pyStr : JVal → String
  | .s v => v
  | .n v => toString v
  | .b true => "True"
  | .b false => "False"
  | .null => "None"
  | .obj _ => "<dict>"
  | .arr _ => "<list>"

/-- The error reply built for an unrecognized inbound message type. -/
def unknownTypeMsg (message_type : JVal) (message : Msg) : Msg :=
  [("type", .s "error"),
   ("data", .obj
     [("message", .s ("Unknown message type: " ++ pyStr message_type)),
      ("received_message", .obj message)])]

/-- The `handshake_ack` reply (`agents` is the snapshot obtained from the
external Agent Registry collaborator; on any failure the code falls back to
an empty list, so the snapshot is simply a parameter here). -/
def handshakeAckMsg (agents : List JVal) (now : Nat) : Msg :=
  [("type", .s "handshake_ack"),
   ("data", .obj
     [("accepted", .b true),
      ("acceptedCapabilities", .arr [.s "chat", .s "workflow", .s "copilot"]),
      ("agents", .arr agents),
      ("timestamp", .s (isoTimestamp now))])]

/-- The `pong` reply. -/
def pongMsg (now cid : Nat) : Msg :=
  [("type", .s "pong"),
   ("data", .obj
     [("timestamp", .s (isoTimestamp now)),
      ("connection_id", .n cid)])]

/-- The `status` reply. -/
def statusMsg (vault_id : String) (count now : Nat) : Msg :=
  [("type", .s "status"),
   ("data", .obj
     [("vault_id", .s vault_id),
      ("connections", .n count),
      ("timestamp", .s (isoTimestamp now))])]

/-- Update `connection_metadata[id(websocket)]["last_ping"]` when tracked
(the shared prologue of the `ping` / `pong` / `heartbeat_response`
branches). -/
def touchLastPing (st : WSState) (ws now : Nat) : WSState :=
  match dLookup st.connection_metadata ws with
  | some m =>
    let m2 := { m with last_ping := now }
    { st with connection_metadata := dSet st.connection_metadata ws m2 }
  | none => st

/-- `message.get("files", [])` read from the `data` value of a
`vault_update` message (the code assumes `data` decoded as a dict; a
non-dict yields the default here). -/
def filesOf (data : JVal) : JVal :=
  match data with
  | .obj fields => (dLookup fields "files").getD (.arr [])
  | _ => .arr []

/-- `handle_client_message`: dispatch an inbound decoded message by its
`type` field (default `"unknown"`), mirroring the `if/elif/else` chain of
the source.  Any value that is not one of the six recognized strings —
including every non-string value, which compares unequal to all of them —
falls through to the error reply. -/
def handle_client_message (st : WSState) (ws : Nat) (vault_id : String) (message : Msg)
    (now : Nat) (ok : Nat → Bool) (agents : List JVal) : WSState × List Tx :=
  let mt := (dLookup message "type").getD (.s "unknown")
  let data := (dLookup message "data").getD (.obj [])
  match mt with
  | .s t =>
    if t = "handshake" then
      send_to_connection st ws (handshakeAckMsg agents now) now ok
    else if t = "ping" then
      send_to_connection (touchLastPing st ws now) ws (pongMsg now ws) now ok
    else if t = "pong" then
      (touchLastPing st ws now, [])
    else if t = "heartbeat_response" then
      (touchLastPing st ws now, [])
    else if t = "vault_update" then
      send_vault_sync st vault_id
        (.obj [("action", .s "content_updated"),
               ("files", filesOf data),
               ("timestamp", .s (isoTimestamp now))]) now ok
    else if t = "request_status" then
      send_to_connection st ws
        (statusMsg vault_id (get_connection_count st (some vault_id)) now) now ok
    else
      send_to_connection st ws (unknownTypeMsg (.s t) message) now ok
  | other =>
    send_to_connection st ws (unknownTypeMsg other message) now ok

/-- The recognized inbound message types of the dispatch chain. -/
def recognizedTypes : List String :=
  ["handshake", "ping", "pong", "heartbeat_response", "vault_update", "request_status"]

/-- The `except json.JSONDecodeError` branch of `websocket_endpoint`: on a
payload that fails to decode, call
`websocket_manager.send_error(vault_id, "Invalid JSON message")` and keep
the receive loop (and hence the connection) running. -/
def endpointOnDecodeError (st : WSState) (vault_id : String) (now : Nat)
    (ok : Nat → Bool) : WSState × List Tx :=
  send_error st vault_id "Invalid JSON message" now ok

/-! ### Operation sequences

The external interface exercised by the claims: register (connect),
unregister (disconnect) and the three broadcast entry points, each step
with its own clock value and transport oracle. -/

inductive Op where
  | reg (ws : Nat) (vault : String) (user : Option String)
  | unreg (ws : Nat) (vault : String) (user : Option String)
  | bvault (vault : String) (message : Msg)
  | buser (user : String) (message : Msg)
  | ball (message : Msg)

/-- Whether an operation is a pure registry operation (register/unregister). -/
def Op.isRegistry : Op → Bool
  | .reg _ _ _ => true
  | .unreg _ _ _ => true
  | _ => false

/-- One step of a run: an operation, the clock at that step, and the
transport oracle in effect for that step. -/
structure Step where
  op : Op
  now : Nat
  ok : Nat → Bool

/-- Apply one operation to the state (transmissions discarded). -/
def runOp (st : WSState) (s : Step) : WSState :=
  match s.op with
  | .reg ws v u => (connect st ws v u s.now s.ok).1
  | .unreg ws v u => disconnect st ws v u
  | .bvault v m => (broadcast_to_vault st v m s.now s.ok).1
  | .buser u m => (broadcast_to_user st u m s.now s.ok).1
  | .ball m => (broadcast_to_all st m s.now s.ok).1

/-- Run a sequence of steps from the fresh manager. -/
def runSteps (steps : List Step) : WSState :=
  steps.foldl runOp initState

/-- Reference predicate, read off the call sequence alone: the last
register/unregister event for this websocket in this vault is a register.
This is the spec's "currently-registered, not-yet-unregistered". -/
def regAfter (steps : List Step) (ws : Nat) (v : String) : Bool :=
  steps.foldl (fun acc s =>
    match s.op with
    | .reg ws2 v2 _ => if ws2 = ws ∧ v2 = v then true else acc
    | .unreg ws2 v2 _ => if ws2 = ws ∧ v2 = v then false else acc
    | _ => acc) false

/-- Every websocket that a register step of the sequence mentions. -/
def wsMentioned (steps : List Step) : List Nat :=
  steps.filterMap (fun s =>
    match s.op with
    | .reg ws _ _ => some ws
    | _ => none)

/-! ### Dictionary and set lemmas -/

theorem dLookup_dSet_self {α β : Type} [DecidableEq α] (m : List (α × β)) (k : α) (v : β) :
    dLookup (dSet m k v) k = some v := by
  induction m with
  | nil => simp [dSet, dLookup]
  | cons p rest ih =>
    by_cases h : p.1 = k
    · simp [dSet, h, dLookup]
    · simpa [dSet, h, dLookup] using ih

theorem dLookup_dSet_ne {α β : Type} [DecidableEq α] (m : List (α × β)) {k a : α} (v : β)
    (h : a ≠ k) : dLookup (dSet m k v) a = dLookup m a := by
  have h2 : ¬ k = a := fun e => h e.symm
  induction m with
  | nil => simp [dSet, dLookup, h2]
  | cons p rest ih =>
    by_cases hk : p.1 = k
    · simp [dSet, hk, dLookup, h2]
    · simp [dSet, hk, dLookup, ih]

theorem dLookup_dDel_self {α β : Type} [DecidableEq α] (m : List (α × β)) (a : α) :
    dLookup (dDel m a) a = none := by
  induction m with
  | nil => rfl
  | cons p rest ih =>
    by_cases h : p.1 = a
    · simpa [dDel, h] using ih
    · simpa [dDel, h, dLookup] using ih

theorem dLookup_dDel_ne {α β : Type} [DecidableEq α] (m : List (α × β)) {k a : α}
    (h : a ≠ k) : dLookup (dDel m k) a = dLookup m a := by
  induction m with
  | nil => rfl
  | cons p rest ih =>
    by_cases hk : p.1 = k
    · have hka : ¬ k = a := fun e => h e.symm
      simpa [dDel, hk, dLookup, hka] using ih
    · simp [dDel, hk, dLookup, ih]

theorem dDel_of_lookup_none {α β : Type} [DecidableEq α] (m : List (α × β)) (a : α)
    (h : dLookup m a = none) : dDel m a = m := by
  induction m with
  | nil => rfl
  | cons p rest ih =>
    by_cases hk : p.1 = a
    · simp [dLookup, hk] at h
    · have h2 : dLookup rest a = none := by
        simpa [dLookup, hk] using h
      simp [dDel, hk, ih h2]

theorem dDel_dDel {α β : Type} [DecidableEq α] (m : List (α × β)) (a : α) :
    dDel (dDel m a) a = dDel m a :=
  dDel_of_lookup_none _ _ (dLookup_dDel_self m a)

theorem dSet_dSet {α β : Type} [DecidableEq α] (m : List (α × β)) (k : α) (v w : β) :
    dSet (dSet m k v) k w = dSet m k w := by
  induction m with
  | nil => simp [dSet]
  | cons p rest ih =>
    by_cases h : p.1 = k
    · simp [dSet, h]
    · simp [dSet, h, ih]

theorem isSome_of_mem_keys {α β : Type} [DecidableEq α] (m : List (α × β)) (a : α)
    (h : a ∈ m.map Prod.fst) : (dLookup m a).isSome := by
  induction m with
  | nil => simp at h
  | cons p rest ih =>
    by_cases hk : p.1 = a
    · simp [dLookup, hk]
    · rw [List.map_cons] at h
      rcases List.mem_cons.mp h with h1 | h1
      · exact absurd h1.symm hk
      · simpa [dLookup, hk] using ih h1

theorem mem_sAdd {l : List Nat} {x a : Nat} : a ∈ sAdd l x ↔ a ∈ l ∨ a = x := by
  by_cases h : x ∈ l
  · simp only [sAdd, if_pos h]
    constructor
    · exact fun hm => Or.inl hm
    · rintro (hm | rfl)
      · exact hm
      · exact h
  · simp [sAdd, if_neg h]

theorem sAdd_ne_nil (l : List Nat) (x : Nat) : sAdd l x ≠ [] := by
  intro h
  have : x ∈ sAdd l x := mem_sAdd.mpr (Or.inr rfl)
  rw [h] at this
  simp at this

theorem nodup_sAdd {l : List Nat} (x : Nat) (h : l.Nodup) : (sAdd l x).Nodup := by
  by_cases hm : x ∈ l
  · simpa [sAdd, hm] using h
  · rw [sAdd, if_neg hm]
    refine List.Nodup.append h (List.nodup_singleton x) ?_
    intro b hb hbx
    rw [List.mem_singleton] at hbx
    subst hbx
    exact hm hb

theorem mem_sDiscard {l : List Nat} {x a : Nat} : a ∈ sDiscard l x ↔ a ∈ l ∧ a ≠ x := by
  simp [sDiscard]

theorem nodup_sDiscard {l : List Nat} (x : Nat) (h : l.Nodup) : (sDiscard l x).Nodup :=
  List.Nodup.filter _ h

theorem sDiscard_sDiscard (l : List Nat) (x : Nat) :
    sDiscard (sDiscard l x) x = sDiscard l x := by
  simp [sDiscard, List.filter_filter]

theorem sDiscard_not_mem (l : List Nat) (x : Nat) : x ∉ sDiscard l x := by
  intro h
  exact (mem_sDiscard.mp h).2 rfl

/-! ### Characterizations of `disconnect` -/

theorem getList_disconnect (st : WSState) (ws : Nat) (v : String) (u : Option String)
    (w : String) :
    getList (disconnect st ws v u) w =
      if w = v then sDiscard (getList st v) ws else getList st w := by
  simp only [disconnect, getList]
  cases hl : dLookup st.connections v with
  | none =>
    by_cases hw : w = v
    · subst hw
      simp [hl, sDiscard]
    · simp [hw]
  | some s =>
    dsimp only
    by_cases he : (sDiscard s ws).isEmpty
    · rw [if_pos he]
      by_cases hw : w = v
      · subst hw
        rw [if_pos rfl, dLookup_dDel_self]
        simpa [Option.getD] using (List.isEmpty_iff.mp he).symm
      · rw [if_neg hw, dLookup_dDel_ne _ hw]
    · rw [if_neg he]
      by_cases hw : w = v
      · subst hw
        rw [if_pos rfl, dLookup_dSet_self]
        rfl
      · rw [if_neg hw, dLookup_dSet_ne _ _ hw]

theorem sessions_disconnect (st : WSState) (ws : Nat) (v : String) (u : Option String) :
    (disconnect st ws v u).user_sessions =
      match u with
      | some uu => dDel st.user_sessions uu
      | none => st.user_sessions := by
  simp only [disconnect]
  cases u with
  | none => rfl
  | some uu =>
    by_cases h : (dLookup st.user_sessions uu).isSome
    · simp [h]
    · rw [Option.not_isSome_iff_eq_none] at h
      simp [h, dDel_of_lookup_none _ _ h]

theorem metadata_disconnect (st : WSState) (ws : Nat) (v : String) (u : Option String) :
    (disconnect st ws v u).connection_metadata = dDel st.connection_metadata ws := by
  simp only [disconnect]
  by_cases h : (dLookup st.connection_metadata ws).isSome
  · simp [h]
  · rw [Option.not_isSome_iff_eq_none] at h
    simp [h, dDel_of_lookup_none _ _ h]

theorem disconnect_no_add (st : WSState) (ws : Nat) (v : String) (u : Option String)
    {a : Nat} {w : String} (h : a ∉ getList st w) :
    a ∉ getList (disconnect st ws v u) w := by
  rw [getList_disconnect]
  by_cases hw : w = v
  · subst hw
    rw [if_pos rfl]
    intro hm
    exact h (mem_sDiscard.mp hm).1
  · rw [if_neg hw]
    exact h

theorem disconnect_metadata_ne (st : WSState) (ws : Nat) (v : String) (u : Option String)
    {a : Nat} (h : a ≠ ws) :
    dLookup (disconnect st ws v u).connection_metadata a =
      dLookup st.connection_metadata a := by
  rw [metadata_disconnect, dLookup_dDel_ne _ h]

/-! ### Characterizations of `send_to_connection` -/

theorem stc_txs (st : WSState) (ws : Nat) (m : Msg) (now : Nat) (ok : Nat → Bool) :
    (send_to_connection st ws m now ok).2 =
      if ok ws then [(ws, envelope m now)] else [] := by
  simp only [send_to_connection]
  by_cases h : ok ws
  · simp [h]
  · cases hl : dLookup st.connection_metadata ws with
    | none => simp [h, hl]
    | some mm => simp [h, hl]

theorem stc_connections_of_ok (st : WSState) (ws : Nat) (m : Msg) (now : Nat)
    (ok : Nat → Bool) (h : ok ws = true) :
    (send_to_connection st ws m now ok).1.connections = st.connections := by
  simp only [send_to_connection, h, if_pos]
  cases hl : dLookup st.connection_metadata ws with
  | none => rfl
  | some mm => rfl

theorem stc_sessions_of_ok (st : WSState) (ws : Nat) (m : Msg) (now : Nat)
    (ok : Nat → Bool) (h : ok ws = true) :
    (send_to_connection st ws m now ok).1.user_sessions = st.user_sessions := by
  simp only [send_to_connection, h, if_pos]
  cases hl : dLookup st.connection_metadata ws with
  | none => rfl
  | some mm => rfl

theorem stc_metadata_isSome_of_ok (st : WSState) (ws : Nat) (m : Msg) (now : Nat)
    (ok : Nat → Bool) (h : ok ws = true) (a : Nat) :
    (dLookup (send_to_connection st ws m now ok).1.connection_metadata a).isSome =
      (dLookup st.connection_metadata a).isSome := by
  simp only [send_to_connection, h, if_pos]
  cases hl : dLookup st.connection_metadata ws with
  | none => rfl
  | some mm =>
    by_cases ha : a = ws
    · subst ha
      simp [dLookup_dSet_self, hl]
    · simp [dLookup_dSet_ne _ _ ha]

theorem stc_no_add (st : WSState) (ws : Nat) (m : Msg) (now : Nat) (ok : Nat → Bool)
    {a : Nat} {w : String} (h : a ∉ getList st w) :
    a ∉ getList (send_to_connection st ws m now ok).1 w := by
  simp only [send_to_connection]
  by_cases hk : ok ws
  · cases hl : dLookup st.connection_metadata ws with
    | none => simpa [hk, hl, getList] using h
    | some mm => simpa [hk, hl, getList] using h
  · cases hl : dLookup st.connection_metadata ws with
    | none => simpa [hk, hl] using h
    | some mm =>
      simp only [hk, hl, Bool.false_eq_true, if_false]
      exact disconnect_no_add _ _ _ _ h

theorem stc_metadata_ne (st : WSState) (ws : Nat) (m : Msg) (now : Nat) (ok : Nat → Bool)
    {a : Nat} (h : a ≠ ws) :
    dLookup (send_to_connection st ws m now ok).1.connection_metadata a =
      dLookup st.connection_metadata a := by
  simp only [send_to_connection]
  by_cases hk : ok ws
  · cases hl : dLookup st.connection_metadata ws with
    | none => simp [hk, hl]
    | some mm => simp [hk, hl, dLookup_dSet_ne _ _ h]
  · cases hl : dLookup st.connection_metadata ws with
    | none => simp [hk, hl]
    | some mm =>
      simp only [hk, hl, Bool.false_eq_true, if_false]
      exact disconnect_metadata_ne _ _ _ _ h

/-! ### Characterizations of the broadcast operations -/

theorem broadcastLoop_txs (st : WSState) (snap : List Nat) (m : Msg) (now : Nat)
    (ok : Nat → Bool) :
    (broadcastLoop st snap m now ok).2 =
      (snap.filter ok).map (fun w => (w, envelope m now)) := by
  induction snap generalizing st with
  | nil => rfl
  | cons ws rest ih =>
    simp only [broadcastLoop, stc_txs, List.filter_cons]
    by_cases h : ok ws
    · simp [h, ih]
    · simp [h, ih]

theorem broadcastLoop_connections_of_allok (st : WSState) (snap : List Nat) (m : Msg)
    (now : Nat) (ok : Nat → Bool) (h : ∀ w, ok w = true) :
    (broadcastLoop st snap m now ok).1.connections = st.connections := by
  induction snap generalizing st with
  | nil => rfl
  | cons ws rest ih =>
    simp only [broadcastLoop]
    rw [ih, stc_connections_of_ok _ _ _ _ _ (h ws)]

theorem broadcastLoop_sessions_of_allok (st : WSState) (snap : List Nat) (m : Msg)
    (now : Nat) (ok : Nat → Bool) (h : ∀ w, ok w = true) :
    (broadcastLoop st snap m now ok).1.user_sessions = st.user_sessions := by
  induction snap generalizing st with
  | nil => rfl
  | cons ws rest ih =>
    simp only [broadcastLoop]
    rw [ih, stc_sessions_of_ok _ _ _ _ _ (h ws)]

theorem broadcastLoop_metaIsSome_of_allok (st : WSState) (snap : List Nat) (m : Msg)
    (now : Nat) (ok : Nat → Bool) (h : ∀ w, ok w = true) (a : Nat) :
    (dLookup (broadcastLoop st snap m now ok).1.connection_metadata a).isSome =
      (dLookup st.connection_metadata a).isSome := by
  induction snap generalizing st with
  | nil => rfl
  | cons ws rest ih =>
    simp only [broadcastLoop]
    rw [ih, stc_metadata_isSome_of_ok _ _ _ _ _ (h ws)]

theorem broadcastLoop_no_add (st : WSState) (snap : List Nat) (m : Msg) (now : Nat)
    (ok : Nat → Bool) {a : Nat} {w : String} (h : a ∉ getList st w) :
    a ∉ getList (broadcastLoop st snap m now ok).1 w := by
  induction snap generalizing st with
  | nil => exact h
  | cons ws rest ih =>
    simp only [broadcastLoop]
    exact ih _ (stc_no_add _ _ _ _ _ h)

theorem btv_txs (st : WSState) (v : String) (m : Msg) (now : Nat) (ok : Nat → Bool) :
    (broadcast_to_vault st v m now ok).2 =
      ((getList st v).filter ok).map (fun w => (w, envelope m now)) := by
  simp only [broadcast_to_vault, getList]
  cases hl : dLookup st.connections v with
  | none => rfl
  | some s => exact broadcastLoop_txs _ _ _ _ _

theorem btv_connections_of_allok (st : WSState) (v : String) (m : Msg) (now : Nat)
    (ok : Nat → Bool) (h : ∀ w, ok w = true) :
    (broadcast_to_vault st v m now ok).1.connections = st.connections := by
  simp only [broadcast_to_vault]
  cases hl : dLookup st.connections v with
  | none => rfl
  | some s => exact broadcastLoop_connections_of_allok _ _ _ _ _ h

theorem btv_sessions_of_allok (st : WSState) (v : String) (m : Msg) (now : Nat)
    (ok : Nat → Bool) (h : ∀ w, ok w = true) :
    (broadcast_to_vault st v m now ok).1.user_sessions = st.user_sessions := by
  simp only [broadcast_to_vault]
  cases hl : dLookup st.connections v with
  | none => rfl
  | some s => exact broadcastLoop_sessions_of_allok _ _ _ _ _ h

theorem btv_metaIsSome_of_allok (st : WSState) (v : String) (m : Msg) (now : Nat)
    (ok : Nat → Bool) (h : ∀ w, ok w = true) (a : Nat) :
    (dLookup (broadcast_to_vault st v m now ok).1.connection_metadata a).isSome =
      (dLookup st.connection_metadata a).isSome := by
  simp only [broadcast_to_vault]
  cases hl : dLookup st.connections v with
  | none => rfl
  | some s => exact broadcastLoop_metaIsSome_of_allok _ _ _ _ _ h a

theorem btv_no_add (st : WSState) (v : String) (m : Msg) (now : Nat) (ok : Nat → Bool)
    {a : Nat} {w : String} (h : a ∉ getList st w) :
    a ∉ getList (broadcast_to_vault st v m now ok).1 w := by
  simp only [broadcast_to_vault]
  cases hl : dLookup st.connections v with
  | none => exact h
  | some s => exact broadcastLoop_no_add _ _ _ _ _ h

/-! ### Characterizations of `connect` -/

theorem connect_base_eq (st : WSState) (vault_id : String) :
    ((dLookup (if (dLookup st.connections vault_id).isSome then st.connections
        else dSet st.connections vault_id []) vault_id).getD []) = getList st vault_id := by
  cases hl : dLookup st.connections vault_id with
  | none => simp [hl, getList, dLookup_dSet_self]
  | some s => simp [hl, getList]

theorem getList_connect_ok (st : WSState) (ws : Nat) (v : String) (u : Option String)
    (now : Nat) (ok : Nat → Bool) (h : ok ws = true) (w : String) :
    getList (connect st ws v u now ok).1 w =
      if w = v then sAdd (getList st v) ws else getList st w := by
  simp only [connect]
  rw [getList, stc_connections_of_ok _ _ _ _ _ h]
  by_cases hw : w = v
  · subst hw
    rw [dLookup_dSet_self, Option.getD_some, connect_base_eq, if_pos rfl]
  · rw [dLookup_dSet_ne _ _ hw, if_neg hw]
    cases hl : dLookup st.connections v with
    | none =>
      simp only [Option.isSome_none, Bool.false_eq_true, if_false]
      rw [dLookup_dSet_ne _ _ hw]
      rfl
    | some s => rfl

theorem sessions_connect_ok (st : WSState) (ws : Nat) (v : String) (u : Option String)
    (now : Nat) (ok : Nat → Bool) (h : ok ws = true) :
    (connect st ws v u now ok).1.user_sessions =
      match u with
      | some uu => dSet st.user_sessions uu v
      | none => st.user_sessions := by
  simp only [connect]
  rw [stc_sessions_of_ok _ _ _ _ _ h]

/-! ### The group invariant: every stored vault group is a non-empty,
duplicate-free connection set -/

def GroupsInv (st : WSState) : Prop :=
  ∀ v s, dLookup st.connections v = some s → s ≠ [] ∧ s.Nodup

theorem groupsInv_init : GroupsInv initState := by
  intro v s h
  cases h

theorem getList_nodup_of_inv {st : WSState} (h : GroupsInv st) (v : String) :
    (getList st v).Nodup := by
  rw [getList]
  cases hl : dLookup st.connections v with
  | none => exact List.nodup_nil
  | some s => exact (h v s hl).2

theorem groupsInv_of_connections_eq {a b : WSState} (h : a.connections = b.connections)
    (hb : GroupsInv b) : GroupsInv a := by
  intro v s hl
  rw [h] at hl
  exact hb v s hl

theorem connections_disconnect_lookup (st : WSState) (ws : Nat) (v : String)
    (u : Option String) (w : String) :
    dLookup (disconnect st ws v u).connections w =
      if w = v then
        (match dLookup st.connections v with
         | none => none
         | some s => if (sDiscard s ws).isEmpty then none else some (sDiscard s ws))
      else dLookup st.connections w := by
  simp only [disconnect]
  cases hl : dLookup st.connections v with
  | none =>
    by_cases hw : w = v
    · subst hw
      simp [hl]
    · simp [hw]
  | some s =>
    dsimp only
    by_cases he : (sDiscard s ws).isEmpty
    · rw [if_pos he]
      by_cases hw : w = v
      · subst hw
        rw [if_pos rfl, dLookup_dDel_self, if_pos he]
      · rw [if_neg hw, dLookup_dDel_ne _ hw]
    · rw [if_neg he]
      by_cases hw : w = v
      · subst hw
        rw [if_pos rfl, dLookup_dSet_self, if_neg he]
      · rw [if_neg hw, dLookup_dSet_ne _ _ hw]

theorem groupsInv_disconnect {st : WSState} (h : GroupsInv st) (ws : Nat) (v : String)
    (u : Option String) : GroupsInv (disconnect st ws v u) := by
  intro w s2 h2
  rw [connections_disconnect_lookup] at h2
  by_cases hw : w = v
  · rw [if_pos hw] at h2
    cases hl : dLookup st.connections v with
    | none =>
      rw [hl] at h2
      cases h2
    | some s =>
      rw [hl] at h2
      dsimp only at h2
      by_cases he : (sDiscard s ws).isEmpty
      · rw [if_pos he] at h2
        cases h2
      · rw [if_neg he] at h2
        cases h2
        refine ⟨?_, nodup_sDiscard _ (h v s hl).2⟩
        intro hnil
        rw [hnil] at he
        exact he rfl
  · rw [if_neg hw] at h2
    exact h w s2 h2

theorem groupsInv_stc {st : WSState} (h : GroupsInv st) (ws : Nat) (m : Msg)
    (now : Nat) (ok : Nat → Bool) : GroupsInv (send_to_connection st ws m now ok).1 := by
  by_cases hk : ok ws
  · exact groupsInv_of_connections_eq (stc_connections_of_ok _ _ _ _ _ hk) h
  · simp only [send_to_connection, hk, Bool.false_eq_true, if_false]
    cases hl : dLookup st.connection_metadata ws with
    | none => exact h
    | some mm => exact groupsInv_disconnect h _ _ _

theorem groupsInv_broadcastLoop {st : WSState} (h : GroupsInv st) (snap : List Nat)
    (m : Msg) (now : Nat) (ok : Nat → Bool) :
    GroupsInv (broadcastLoop st snap m now ok).1 := by
  induction snap generalizing st with
  | nil => exact h
  | cons ws rest ih =>
    simp only [broadcastLoop]
    exact ih (groupsInv_stc h _ _ _ _)

theorem groupsInv_btv {st : WSState} (h : GroupsInv st) (v : String) (m : Msg)
    (now : Nat) (ok : Nat → Bool) : GroupsInv (broadcast_to_vault st v m now ok).1 := by
  simp only [broadcast_to_vault]
  cases hl : dLookup st.connections v with
  | none => exact h
  | some s => exact groupsInv_broadcastLoop h _ _ _ _

theorem groupsInv_btu {st : WSState} (h : GroupsInv st) (u : String) (m : Msg)
    (now : Nat) (ok : Nat → Bool) : GroupsInv (broadcast_to_user st u m now ok).1 := by
  simp only [broadcast_to_user]
  cases hl : dLookup st.user_sessions u with
  | none => exact h
  | some v => exact groupsInv_btv h _ _ _ _

theorem groupsInv_ballLoop {st : WSState} (h : GroupsInv st) (vaults : List String)
    (m : Msg) (now : Nat) (ok : Nat → Bool) :
    GroupsInv (broadcastAllLoop st vaults m now ok).1 := by
  induction vaults generalizing st with
  | nil => exact h
  | cons v rest ih =>
    simp only [broadcastAllLoop]
    exact ih (groupsInv_btv h _ _ _ _)

theorem groupsInv_bta {st : WSState} (h : GroupsInv st) (m : Msg) (now : Nat)
    (ok : Nat → Bool) : GroupsInv (broadcast_to_all st m now ok).1 :=
  groupsInv_ballLoop h _ _ _ _

theorem groupsInv_connect {st : WSState} (h : GroupsInv st) (ws : Nat) (v : String)
    (u : Option String) (now : Nat) (ok : Nat → Bool) :
    GroupsInv (connect st ws v u now ok).1 := by
  simp only [connect]
  apply groupsInv_stc
  intro w s2 h2
  by_cases hw : w = v
  · subst hw
    rw [dLookup_dSet_self] at h2
    cases h2
    refine ⟨sAdd_ne_nil _ _, nodup_sAdd _ ?_⟩
    rw [connect_base_eq]
    exact getList_nodup_of_inv h w
  · rw [dLookup_dSet_ne _ _ hw] at h2
    by_cases hs : (dLookup st.connections v).isSome
    · rw [if_pos hs] at h2
      exact h w s2 h2
    · rw [if_neg hs, dLookup_dSet_ne _ _ hw] at h2
      exact h w s2 h2

theorem groupsInv_runOp {st : WSState} (h : GroupsInv st) (s : Step) :
    GroupsInv (runOp st s) := by
  cases hop : s.op with
  | reg ws v u => simpa [runOp, hop] using groupsInv_connect h ws v u s.now s.ok
  | unreg ws v u => simpa [runOp, hop] using groupsInv_disconnect h ws v u
  | bvault v m => simpa [runOp, hop] using groupsInv_btv h v m s.now s.ok
  | buser u m => simpa [runOp, hop] using groupsInv_btu h u m s.now s.ok
  | ball m => simpa [runOp, hop] using groupsInv_bta h m s.now s.ok

theorem groupsInv_foldl {st : WSState} (h : GroupsInv st) (steps : List Step) :
    GroupsInv (steps.foldl runOp st) := by
  induction steps generalizing st with
  | nil => exact h
  | cons s rest ih => exact ih (groupsInv_runOp h s)

theorem groupsInv_runSteps (steps : List Step) : GroupsInv (runSteps steps) :=
  groupsInv_foldl groupsInv_init steps

/-! ### Registry bookkeeping along a run -/

theorem runSteps_append (steps : List Step) (s : Step) :
    runSteps (steps ++ [s]) = runOp (runSteps steps) s := by
  simp [runSteps, List.foldl_append]

theorem regAfter_append (steps : List Step) (s : Step) (ws : Nat) (v : String) :
    regAfter (steps ++ [s]) ws v =
      (match s.op with
       | .reg ws2 v2 _ => if ws2 = ws ∧ v2 = v then true else regAfter steps ws v
       | .unreg ws2 v2 _ => if ws2 = ws ∧ v2 = v then false else regAfter steps ws v
       | _ => regAfter steps ws v) := by
  simp [regAfter, List.foldl_append]

theorem wsMentioned_append (steps : List Step) (s : Step) :
    wsMentioned (steps ++ [s]) = wsMentioned steps ++ wsMentioned [s] := by
  simp [wsMentioned]

/-- The registry contents of a run consisting only of register/unregister
steps, with a healthy transport: a websocket is in a vault's connection set
exactly when its last register/unregister event in that vault was a
register. -/
theorem runSteps_mem (steps : List Step)
    (hreg : ∀ s ∈ steps, s.op.isRegistry = true)
    (hok : ∀ s ∈ steps, ∀ w, s.ok w = true) (v : String) (ws : Nat) :
    ws ∈ getList (runSteps steps) v ↔ regAfter steps ws v = true := by
  induction steps using List.reverseRecOn with
  | nil => simp [runSteps, initState, getList, regAfter, dLookup]
  | append_singleton steps s ih =>
    have hreg2 : ∀ x ∈ steps, x.op.isRegistry = true :=
      fun x hx => hreg x (List.mem_append_left _ hx)
    have hok2 : ∀ x ∈ steps, ∀ w, x.ok w = true :=
      fun x hx => hok x (List.mem_append_left _ hx)
    have hsm : s ∈ steps ++ [s] := List.mem_append_right _ (List.mem_singleton.mpr rfl)
    have ih2 := ih hreg2 hok2
    rw [runSteps_append, regAfter_append]
    cases hop : s.op with
    | reg ws0 v0 u0 =>
      have hok0 : s.ok ws0 = true := hok s hsm ws0
      rw [runOp, hop]
      rw [getList_connect_ok _ _ _ _ _ _ hok0]
      dsimp only
      by_cases hv : v = v0
      · subst hv
        rw [if_pos rfl]
        by_cases hws : ws0 = ws
        · subst hws
          simp [mem_sAdd]
        · have : ¬(ws0 = ws ∧ v = v) := fun hc => hws hc.1
          rw [if_neg this]
          rw [mem_sAdd]
          constructor
          · rintro (hm | rfl)
            · exact ih2.mp hm
            · exact absurd rfl hws
          · exact fun hr => Or.inl (ih2.mpr hr)
      · have hv2 : ¬(ws0 = ws ∧ v0 = v) := fun hc => hv hc.2.symm
        rw [if_neg (fun e : v = v0 => hv e), if_neg hv2]
        exact ih2
    | unreg ws0 v0 u0 =>
      rw [runOp, hop]
      rw [getList_disconnect]
      dsimp only
      by_cases hv : v = v0
      · subst hv
        rw [if_pos rfl, mem_sDiscard]
        by_cases hws : ws0 = ws
        · subst hws
          have : (ws0 = ws0 ∧ v = v) := ⟨rfl, rfl⟩
          rw [if_pos this]
          simp
        · have : ¬(ws0 = ws ∧ v = v) := fun hc => hws hc.1
          rw [if_neg this]
          constructor
          · exact fun hm => ih2.mp hm.1
          · exact fun hr => ⟨ih2.mpr hr, fun e => hws e.symm⟩
      · have hv2 : ¬(ws0 = ws ∧ v0 = v) := fun hc => hv hc.2.symm
        rw [if_neg (fun e : v = v0 => hv e), if_neg hv2]
        exact ih2
    | bvault v0 m0 =>
      have := hreg s hsm
      rw [hop] at this
      cases this
    | buser u0 m0 =>
      have := hreg s hsm
      rw [hop] at this
      cases this
    | ball m0 =>
      have := hreg s hsm
      rw [hop] at this
      cases this

/-- A websocket whose last event in some vault is a register was mentioned
by some register step. -/
theorem regAfter_mem_mentioned (steps : List Step) (ws : Nat) (v : String)
    (h : regAfter steps ws v = true) : ws ∈ wsMentioned steps := by
  induction steps using List.reverseRecOn with
  | nil => simp [regAfter] at h
  | append_singleton steps s ih =>
    rw [regAfter_append] at h
    rw [wsMentioned_append]
    cases hop : s.op with
    | reg ws0 v0 u0 =>
      rw [hop] at h
      dsimp only at h
      by_cases hc : ws0 = ws ∧ v0 = v
      · apply List.mem_append_right
        simp [wsMentioned, hop, hc.1]
      · rw [if_neg hc] at h
        exact List.mem_append_left _ (ih h)
    | unreg ws0 v0 u0 =>
      rw [hop] at h
      dsimp only at h
      by_cases hc : ws0 = ws ∧ v0 = v
      · rw [if_pos hc] at h
        cases h
      · rw [if_neg hc] at h
        exact List.mem_append_left _ (ih h)
    | bvault v0 m0 =>
      rw [hop] at h
      exact List.mem_append_left _ (ih h)
    | buser u0 m0 =>
      rw [hop] at h
      exact List.mem_append_left _ (ih h)
    | ball m0 =>
      rw [hop] at h
      exact List.mem_append_left _ (ih h)

/-! ### Eviction of a dead connection during a broadcast -/

/-- The websocket is fully unregistered from this vault: not in the group
and not tracked. -/
def Gone (st : WSState) (ws : Nat) (v : String) : Prop :=
  ws ∉ getList st v ∧ dLookup st.connection_metadata ws = none

/-- The websocket is tracked with metadata pointing at this vault. -/
def TrackedAt (st : WSState) (ws : Nat) (v : String) : Prop :=
  ∃ mm, dLookup st.connection_metadata ws = some mm ∧ mm.vault_id = v

theorem gone_stc {st : WSState} {ws : Nat} {v : String} {ok : Nat → Bool}
    (hok : ok ws = false) (hg : Gone st ws v) (w : Nat) (m : Msg) (now : Nat) :
    Gone (send_to_connection st w m now ok).1 ws v := by
  by_cases hw : w = ws
  · subst hw
    simp only [send_to_connection, hok, Bool.false_eq_true, if_false, hg.2]
    exact hg
  · have hne : ws ≠ w := fun e => hw e.symm
    exact ⟨stc_no_add _ _ _ _ _ hg.1, by rw [stc_metadata_ne _ _ _ _ _ hne]; exact hg.2⟩

theorem gone_broadcastLoop {st : WSState} {ws : Nat} {v : String} {ok : Nat → Bool}
    (hok : ok ws = false) (hg : Gone st ws v) (snap : List Nat) (m : Msg) (now : Nat) :
    Gone (broadcastLoop st snap m now ok).1 ws v := by
  induction snap generalizing st with
  | nil => exact hg
  | cons w rest ih =>
    simp only [broadcastLoop]
    exact ih (gone_stc hok hg w m now)

theorem trackedAt_stc_ne {st : WSState} {ws : Nat} {v : String} {ok : Nat → Bool}
    (hT : TrackedAt st ws v) (w : Nat) (hw : w ≠ ws) (m : Msg) (now : Nat) :
    TrackedAt (send_to_connection st w m now ok).1 ws v := by
  obtain ⟨mm, hmm, hv⟩ := hT
  refine ⟨mm, ?_, hv⟩
  rw [stc_metadata_ne _ _ _ _ _ (fun e => hw e.symm)]
  exact hmm

theorem stc_fail_tracked_gone {st : WSState} {ws : Nat} {v : String} {ok : Nat → Bool}
    (hok : ok ws = false) (hT : TrackedAt st ws v) (m : Msg) (now : Nat) :
    Gone (send_to_connection st ws m now ok).1 ws v := by
  obtain ⟨mm, hmm, hv⟩ := hT
  simp only [send_to_connection, hok, Bool.false_eq_true, if_false, hmm]
  constructor
  · rw [getList_disconnect, hv, if_pos rfl]
    exact sDiscard_not_mem _ _
  · rw [metadata_disconnect, dLookup_dDel_self]

/-- A dead websocket that the snapshot contains and that is tracked at this
vault is fully unregistered by the time the loop finishes. -/
theorem broadcastLoop_evicts {st : WSState} {ws : Nat} {v : String} {ok : Nat → Bool}
    (hok : ok ws = false) {snap : List Nat} (hmem : ws ∈ snap)
    (hT : TrackedAt st ws v) (m : Msg) (now : Nat) :
    Gone (broadcastLoop st snap m now ok).1 ws v := by
  induction snap generalizing st with
  | nil => cases hmem
  | cons w rest ih =>
    simp only [broadcastLoop]
    by_cases hw : w = ws
    · subst hw
      exact gone_broadcastLoop hok (stc_fail_tracked_gone hok hT m now) rest m now
    · have hmem2 : ws ∈ rest := by
        rcases List.mem_cons.mp hmem with h1 | h1
        · exact absurd h1.symm hw
        · exact h1
      exact ih hmem2 (trackedAt_stc_ne hT w hw m now)

/-! ### Sources of heartbeat transmissions -/

theorem hbLoop_tx_sources (items : List (Nat × ConnMeta)) (size0 : Nat) (st : WSState)
    (now : Nat) (ok : Nat → Bool) (dead : List (Nat × String × Option String))
    (txs0 : List Tx) (p : Tx)
    (hp : p ∈ (heartbeatScanLoop items size0 st now ok dead txs0).2.2.1) :
    p ∈ txs0 ∨ ∃ cm ∈ items, p.1 = cm.2.websocket ∧ isStale now cm.2.last_ping = false := by
  induction items generalizing st dead txs0 with
  | nil =>
    simp only [heartbeatScanLoop] at hp
    by_cases hs : st.connection_metadata.length ≠ size0
    · rw [if_pos hs] at hp
      exact Or.inl hp
    · rw [if_neg hs] at hp
      exact Or.inl hp
  | cons cm rest ih =>
    rw [heartbeatScanLoop] at hp
    by_cases hs : st.connection_metadata.length ≠ size0
    · rw [if_pos hs] at hp
      exact Or.inl hp
    · rw [if_neg hs] at hp
      by_cases hst : isStale now cm.2.last_ping
      · rw [if_pos hst] at hp
        rcases ih _ _ _ hp with h1 | ⟨cm2, hcm2, h2⟩
        · exact Or.inl h1
        · exact Or.inr ⟨cm2, List.mem_cons_of_mem _ hcm2, h2⟩
      · rw [if_neg hst] at hp
        rcases ih _ _ _ hp with h1 | ⟨cm2, hcm2, h2⟩
        · rcases List.mem_append.mp h1 with h3 | h3
          · exact Or.inl h3
          · rw [stc_txs] at h3
            by_cases hk : ok cm.2.websocket
            · rw [if_pos hk] at h3
              rw [List.mem_singleton] at h3
              subst h3
              exact Or.inr ⟨cm, List.mem_cons_self _ _, rfl, by simpa using hst⟩
            · rw [if_neg hk] at h3
              cases h3
        · exact Or.inr ⟨cm2, List.mem_cons_of_mem _ hcm2, h2⟩

theorem hbScan_tx_sources (st : WSState) (now : Nat) (ok : Nat → Bool) (p : Tx)
    (hp : p ∈ (heartbeatScan st now ok).2.2) :
    ∃ cm ∈ st.connection_metadata,
      p.1 = cm.2.websocket ∧ isStale now cm.2.last_ping = false := by
  simp only [heartbeatScan] at hp
  rcases hr : heartbeatScanLoop st.connection_metadata st.connection_metadata.length
      st now ok [] [] with ⟨err, st2, txs, dead⟩
  have hsrc := hbLoop_tx_sources st.connection_metadata st.connection_metadata.length
    st now ok [] [] p
  rw [hr] at hsrc hp
  cases err with
  | none =>
    rcases hsrc (by simpa using hp) with h1 | h1
    · cases h1
    · exact h1
  | some e =>
    rcases hsrc (by simpa using hp) with h1 | h1
    · cases h1
    · exact h1

/-! ### Envelope shape of every transmission -/

/-- The payload has exactly the three envelope fields, with a string
timestamp. -/
def Shaped (tx : Tx) : Prop :=
  ∃ t d s2, tx.2 = [("type", t), ("data", d), ("timestamp", JVal.s s2)]

theorem shaped_envelope (w : Nat) (m : Msg) (now : Nat) : Shaped (w, envelope m now) :=
  ⟨_, _, _, rfl⟩

theorem shaped_stc (st : WSState) (ws : Nat) (m : Msg) (now : Nat) (ok : Nat → Bool) :
    ∀ p ∈ (send_to_connection st ws m now ok).2, Shaped p := by
  intro p hp
  rw [stc_txs] at hp
  by_cases hk : ok ws
  · rw [if_pos hk, List.mem_singleton] at hp
    subst hp
    exact shaped_envelope _ _ _
  · rw [if_neg hk] at hp
    cases hp

theorem shaped_btv (st : WSState) (v : String) (m : Msg) (now : Nat) (ok : Nat → Bool) :
    ∀ p ∈ (broadcast_to_vault st v m now ok).2, Shaped p := by
  intro p hp
  rw [btv_txs] at hp
  rcases List.mem_map.mp hp with ⟨w, hw, he⟩
  subst he
  exact shaped_envelope _ _ _

theorem shaped_btu (st : WSState) (u : String) (m : Msg) (now : Nat) (ok : Nat → Bool) :
    ∀ p ∈ (broadcast_to_user st u m now ok).2, Shaped p := by
  intro p hp
  simp only [broadcast_to_user] at hp
  cases hl : dLookup st.user_sessions u with
  | none =>
    rw [hl] at hp
    cases hp
  | some v =>
    rw [hl] at hp
    exact shaped_btv _ _ _ _ _ p hp

theorem shaped_ballLoop (st : WSState) (vaults : List String) (m : Msg) (now : Nat)
    (ok : Nat → Bool) : ∀ p ∈ (broadcastAllLoop st vaults m now ok).2, Shaped p := by
  induction vaults generalizing st with
  | nil => intro p hp; cases hp
  | cons v rest ih =>
    intro p hp
    simp only [broadcastAllLoop] at hp
    rcases List.mem_append.mp hp with h1 | h1
    · exact shaped_btv _ _ _ _ _ p h1
    · exact ih _ p h1

theorem shaped_bta (st : WSState) (m : Msg) (now : Nat) (ok : Nat → Bool) :
    ∀ p ∈ (broadcast_to_all st m now ok).2, Shaped p :=
  shaped_ballLoop st _ m now ok

theorem shaped_connect (st : WSState) (ws : Nat) (v : String) (u : Option String)
    (now : Nat) (ok : Nat → Bool) : ∀ p ∈ (connect st ws v u now ok).2, Shaped p := by
  intro p hp
  simp only [connect] at hp
  exact shaped_stc _ _ _ _ _ p hp

theorem shaped_hcm (st : WSState) (ws : Nat) (v : String) (message : Msg) (now : Nat)
    (ok : Nat → Bool) (agents : List JVal) :
    ∀ p ∈ (handle_client_message st ws v message now ok agents).2, Shaped p := by
  intro p hp
  simp only [handle_client_message] at hp
  cases hmt : (dLookup message "type").getD (JVal.s "unknown") with
  | s t =>
    rw [hmt] at hp
    dsimp only at hp
    by_cases h1 : t = "handshake"
    · rw [if_pos h1] at hp
      exact shaped_stc _ _ _ _ _ p hp
    · rw [if_neg h1] at hp
      by_cases h2 : t = "ping"
      · rw [if_pos h2] at hp
        exact shaped_stc _ _ _ _ _ p hp
      · rw [if_neg h2] at hp
        by_cases h3 : t = "pong"
        · rw [if_pos h3] at hp
          cases hp
        · rw [if_neg h3] at hp
          by_cases h4 : t = "heartbeat_response"
          · rw [if_pos h4] at hp
            cases hp
          · rw [if_neg h4] at hp
            by_cases h5 : t = "vault_update"
            · rw [if_pos h5] at hp
              simp only [send_vault_sync] at hp
              exact shaped_btv _ _ _ _ _ p hp
            · rw [if_neg h5] at hp
              by_cases h6 : t = "request_status"
              · rw [if_pos h6] at hp
                exact shaped_stc _ _ _ _ _ p hp
              · rw [if_neg h6] at hp
                exact shaped_stc _ _ _ _ _ p hp
  | n x =>
    rw [hmt] at hp
    exact shaped_stc _ _ _ _ _ p hp
  | b x =>
    rw [hmt] at hp
    exact shaped_stc _ _ _ _ _ p hp
  | obj x =>
    rw [hmt] at hp
    exact shaped_stc _ _ _ _ _ p hp
  | arr x =>
    rw [hmt] at hp
    exact shaped_stc _ _ _ _ _ p hp
  | null =>
    rw [hmt] at hp
    exact shaped_stc _ _ _ _ _ p hp

theorem shaped_hbLoop (items : List (Nat × ConnMeta)) (size0 : Nat) (st : WSState)
    (now : Nat) (ok : Nat → Bool) (dead : List (Nat × String × Option String))
    (txs0 : List Tx) (h0 : ∀ p ∈ txs0, Shaped p) :
    ∀ p ∈ (heartbeatScanLoop items size0 st now ok dead txs0).2.2.1, Shaped p := by
  induction items generalizing st dead txs0 with
  | nil =>
    intro p hp
    rw [heartbeatScanLoop] at hp
    by_cases hs : st.connection_metadata.length ≠ size0
    · rw [if_pos hs] at hp
      exact h0 p hp
    · rw [if_neg hs] at hp
      exact h0 p hp
  | cons cm rest ih =>
    intro p hp
    rw [heartbeatScanLoop] at hp
    by_cases hs : st.connection_metadata.length ≠ size0
    · rw [if_pos hs] at hp
      exact h0 p hp
    · rw [if_neg hs] at hp
      by_cases hst : isStale now cm.2.last_ping
      · rw [if_pos hst] at hp
        exact ih _ _ _ h0 p hp
      · rw [if_neg hst] at hp
        refine ih _ _ _ ?_ p hp
        intro q hq
        rcases List.mem_append.mp hq with h1 | h1
        · exact h0 q h1
        · exact shaped_stc _ _ _ _ _ q h1

theorem shaped_hbScan (st : WSState) (now : Nat) (ok : Nat → Bool) :
    ∀ p ∈ (heartbeatScan st now ok).2.2, Shaped p := by
  intro p hp
  simp only [heartbeatScan] at hp
  rcases hr : heartbeatScanLoop st.connection_metadata st.connection_metadata.length
      st now ok [] [] with ⟨err, st2, txs, dead⟩
  have hsh := shaped_hbLoop st.connection_metadata st.connection_metadata.length
    st now ok [] [] (by intro q hq; cases hq) p
  rw [hr] at hsh hp
  cases err with
  | none => exact hsh (by simpa using hp)
  | some e => exact hsh (by simpa using hp)

/-- The first let of `disconnect`, exposed. -/
theorem connections_disconnect (st : WSState) (ws : Nat) (v : String) (u : Option String) :
    (disconnect st ws v u).connections =
      match dLookup st.connections v with
      | some s =>
        if (sDiscard s ws).isEmpty then dDel st.connections v
        else dSet st.connections v (sDiscard s ws)
      | none => st.connections := rfl

/-! ### Claim theorems -/

/-- A registry with two clients, websockets 1 and 2, both in channel `v`
and neither carrying a user id. -/
def c1State : WSState :=
  ⟨[("v", [1, 2])], [],
   [(1, ⟨"v", none, 0, 0, 1⟩), (2, ⟨"v", none, 0, 0, 2⟩)]⟩

/-- C1, counterexample to the claim as stated: when websocket 1 (the
offending client) sends undecodable text, the server's reply — modelled by
`endpointOnDecodeError`, i.e. `send_error(vault_id, "Invalid JSON message")`
— is transmitted to websocket 2 as well, because `send_error` broadcasts to
the whole vault.  The recipient list is `[1, 2]`, not `[1]`. -/
theorem c1_counterexample :
    (endpointOnDecodeError c1State "v" 5 (fun _ => true)).2.map Prod.fst = [1, 2] := by
  rfl

/-- C1 (amended): on a JSON decode error the server broadcasts one `error`
event with message "Invalid JSON message" to every connection currently in
the offending client's channel (the offender included); no connection
outside that channel receives anything; and when all transports are
healthy, the registry is untouched — in particular the offending connection
stays in its channel group, keeps its session entry and stays tracked. -/
theorem c1_amended (st : WSState) (v : String) (now : Nat) (ok : Nat → Bool)
    (hok : ∀ w, ok w = true) :
    (endpointOnDecodeError st v now ok).2 =
      (getList st v).map
        (fun w => (w, envelope (errorMsg "Invalid JSON message" now) now)) ∧
    (endpointOnDecodeError st v now ok).1.connections = st.connections ∧
    (endpointOnDecodeError st v now ok).1.user_sessions = st.user_sessions ∧
    ∀ a, (dLookup (endpointOnDecodeError st v now ok).1.connection_metadata a).isSome =
      (dLookup st.connection_metadata a).isSome := by
  refine ⟨?_, ?_, ?_, ?_⟩
  · rw [endpointOnDecodeError, send_error, btv_txs]
    congr 1
    exact List.filter_eq_self.mpr (fun a _ => hok a)
  · exact btv_connections_of_allok _ _ _ _ _ hok
  · exact btv_sessions_of_allok _ _ _ _ _ hok
  · exact btv_metaIsSome_of_allok _ _ _ _ _ hok

/-- C1 witness: the amended theorem at the concrete two-client state. -/
theorem c1_amended_witness :
    (endpointOnDecodeError c1State "v" 5 (fun _ => true)).1.connections =
      c1State.connections :=
  (c1_amended c1State "v" 5 (fun _ => true) (fun _ => rfl)).2.1

/-- Two tracked, recently-active connections in channel `v`; the transport
to websocket 1 is dead, the transport to websocket 2 is healthy. -/
def c2State : WSState :=
  ⟨[("v", [1, 2])], [],
   [(1, ⟨"v", none, 20, 20, 1⟩), (2, ⟨"v", none, 20, 20, 2⟩)]⟩

/-- Transport oracle for C2: only websocket 2 accepts sends. -/
def c2ok : Nat → Bool := fun w => w == 2

/-- C2, evaluation at the failing input: with two live connections and the
first one's heartbeat send failing, the failing connection is unregistered
immediately inside `send_to_connection` (its metadata entry is already gone
when the scan aborts), the mid-scan deletion makes the dict iteration raise
`RuntimeError`, and connection 2 never receives its heartbeat — the scan
neither defers the eviction to after the scan nor completes for every
tracked connection, contradicting the claim (which matches the monitor's
own dead `except`-and-mark branch). -/
theorem c2_eviction_mid_scan :
    (heartbeatScan c2State 20 c2ok).1 = some dictChangedMsg ∧
    dLookup (heartbeatScan c2State 20 c2ok).2.1.connection_metadata 1 = none ∧
    getList (heartbeatScan c2State 20 c2ok).2.1 "v" = [2] ∧
    (heartbeatScan c2State 20 c2ok).2.2 = [] :=
  ⟨rfl, rfl, rfl, rfl⟩

/-- C3: `disconnect` deletes the user's session entry whenever a user id is
supplied, without checking that the session still points at the channel
being disconnected.  So after the mapping of `u` has been overwritten to
channel `vB`, disconnecting an older connection of `u` that supplies
channel `vA` still erases the entry, a later `broadcast_to_user u` is a
no-op (it returns the state unchanged and transmits nothing), and yet `u`'s
live connection is still sitting in channel `vB`. -/
theorem c3_disconnect_deletes_session (st : WSState) (ws ws2 : Nat) (vA vB u : String)
    (m : Msg) (now : Nat) (ok : Nat → Bool)
    (hses : dLookup st.user_sessions u = some vB)
    (hlive : ws2 ∈ getList st vB) (hne : vA ≠ vB) :
    dLookup (disconnect st ws vA (some u)).user_sessions u = none ∧
    ws2 ∈ getList (disconnect st ws vA (some u)) vB ∧
    broadcast_to_user (disconnect st ws vA (some u)) u m now ok =
      (disconnect st ws vA (some u), []) := by
  have hs : dLookup (disconnect st ws vA (some u)).user_sessions u = none := by
    rw [sessions_disconnect]
    exact dLookup_dDel_self _ _
  refine ⟨hs, ?_, ?_⟩
  · rw [getList_disconnect, if_neg (fun e : vB = vA => hne e.symm)]
    exact hlive
  · simp only [broadcast_to_user, hs]

/-- Registry for the C3 witness: user `u`'s session points at `B` where
websocket 2 lives; websocket 1 is an older connection in `A`. -/
def c3State : WSState :=
  ⟨[("A", [1]), ("B", [2])], [("u", "B")],
   [(1, ⟨"A", some "u", 0, 0, 1⟩), (2, ⟨"B", some "u", 0, 0, 2⟩)]⟩

/-- C3 witness: the theorem at the concrete two-channel state. -/
theorem c3_witness :
    dLookup (disconnect c3State 1 "A" (some "u")).user_sessions "u" = none ∧
    2 ∈ getList (disconnect c3State 1 "A" (some "u")) "B" ∧
    broadcast_to_user (disconnect c3State 1 "A" (some "u")) "u" [] 9 (fun _ => true) =
      (disconnect c3State 1 "A" (some "u"), []) :=
  c3_disconnect_deletes_session c3State 1 2 "A" "B" "u" [] 9 (fun _ => true)
    rfl (by decide) (by decide)

/-- C4: after any sequence of register, unregister and broadcast operations
(each with its own clock and transport oracle), every channel name listed
by `get_active_vaults` still has a non-empty connection set — the group of
a channel is deleted the instant its last connection leaves, on every path
(`disconnect` directly, a failed send inside a broadcast, or a failed
welcome send). -/
theorem c4_no_empty_groups (steps : List Step) (v : String)
    (hv : v ∈ get_active_vaults (runSteps steps)) :
    getList (runSteps steps) v ≠ [] := by
  have hv2 : v ∈ (runSteps steps).connections.map Prod.fst := hv
  have hs := isSome_of_mem_keys _ _ hv2
  rcases ho : dLookup (runSteps steps).connections v with _ | s
  · rw [ho] at hs
    cases hs
  · rw [getList, ho]
    exact ((groupsInv_runSteps steps) v s ho).1

/-- One register step, for the C4 witness. -/
def c4Steps : List Step := [⟨Op.reg 1 "a" none, 0, fun _ => true⟩]

/-- C4 witness: the theorem at a concrete one-step run. -/
theorem c4_witness : getList (runSteps c4Steps) "a" ≠ [] :=
  c4_no_empty_groups c4Steps "a" (by decide)

/-- C5: `broadcast_to_vault` iterates over the snapshot
`list(self.connections[vault_id])` taken at call time.  The transmissions
are exactly one enveloped copy of the message to every snapshot member
whose transport accepts the send — so after one dead connection the
broadcast still reaches every remaining member, and the function is total
(every exception of the underlying send is caught inside
`send_to_connection`, so the call never raises to its caller).  A snapshot
member whose send fails and whose metadata points at this vault is fully
unregistered as a side effect: afterwards it is neither in the channel
group nor tracked. -/
theorem c5_broadcast_degrades (st : WSState) (v : String) (m : Msg) (now : Nat)
    (ok : Nat → Bool) (ws : Nat) (mm : ConnMeta)
    (hmeta : dLookup st.connection_metadata ws = some mm)
    (hvault : mm.vault_id = v) (hdead : ok ws = false)
    (hmem : ws ∈ getList st v) :
    (broadcast_to_vault st v m now ok).2 =
      ((getList st v).filter ok).map (fun w => (w, envelope m now)) ∧
    ws ∉ getList (broadcast_to_vault st v m now ok).1 v ∧
    dLookup (broadcast_to_vault st v m now ok).1.connection_metadata ws = none := by
  have hT : TrackedAt st ws v := ⟨mm, hmeta, hvault⟩
  have hgone : Gone (broadcast_to_vault st v m now ok).1 ws v := by
    simp only [broadcast_to_vault]
    cases hl : dLookup st.connections v with
    | none =>
      rw [getList, hl] at hmem
      cases hmem
    | some s =>
      have hmem2 : ws ∈ s := by
        rw [getList, hl] at hmem
        exact hmem
      exact broadcastLoop_evicts hdead hmem2 hT m now
  exact ⟨btv_txs st v m now ok, hgone.1, hgone.2⟩

/-- One tracked connection in channel `v`, for the C5 witness. -/
def c5State : WSState := ⟨[("v", [1])], [], [(1, ⟨"v", none, 0, 0, 1⟩)]⟩

/-- C5 witness: the theorem at the concrete one-connection state with a
dead transport. -/
theorem c5_witness :
    dLookup (broadcast_to_vault c5State "v" [] 7 (fun _ => false)).1.connection_metadata 1 =
      none :=
  (c5_broadcast_degrades c5State "v" [] 7 (fun _ => false) 1 ⟨"v", none, 0, 0, 1⟩
    rfl rfl rfl (by decide)).2.2

/-- C6: the staleness comparison of the heartbeat monitor is a strict
greater-than — a connection whose elapsed time equals the timeout exactly
is not stale — and every heartbeat transmission of a monitor cycle
originates from a tracked connection that was not stale; equivalently, a
connection marked stale has no I/O attempted on it during the scan. -/
theorem c6_boundary_alive_stale_no_send :
    (∀ now lp : Nat, now - lp = heartbeat_timeout → isStale now lp = false) ∧
    (∀ (st : WSState) (now : Nat) (ok : Nat → Bool),
      ∀ p ∈ (heartbeatScan st now ok).2.2,
        ∃ cm ∈ st.connection_metadata,
          p.1 = cm.2.websocket ∧ isStale now cm.2.last_ping = false) := by
  constructor
  · intro now lp h
    simp [isStale, h, heartbeat_timeout]
  · intro st now ok p hp
    exact hbScan_tx_sources st now ok p hp

/-- C6 witness: the boundary case at elapsed time exactly 60. -/
theorem c6_witness : isStale 100 40 = false :=
  c6_boundary_alive_stale_no_send.1 100 40 rfl

/-- C7: over any run made of register/unregister steps with healthy
transports, `get_connection_count` of a channel equals the number of
distinct websockets whose last register/unregister event in that channel is
a register (the currently-registered, not-yet-unregistered connections);
and `disconnect` is idempotent on the registry state — a second identical
`disconnect` is a no-op (so it changes the count only once) and, being a
total function whose removals are all guarded, it never raises. -/
theorem c7_count_and_idempotent_unregister :
    (∀ (steps : List Step) (v : String),
      (∀ s ∈ steps, s.op.isRegistry = true) →
      (∀ s ∈ steps, ∀ w, s.ok w = true) →
      get_connection_count (runSteps steps) (some v) =
        ((wsMentioned steps).dedup.filter (fun ws => regAfter steps ws v)).length) ∧
    (∀ (st : WSState) (ws : Nat) (v : String) (u : Option String),
      disconnect (disconnect st ws v u) ws v u = disconnect st ws v u) := by
  constructor
  · intro steps v hreg hok
    have hL : get_connection_count (runSteps steps) (some v) =
        (getList (runSteps steps) v).length := rfl
    rw [hL]
    have hnodL : (getList (runSteps steps) v).Nodup :=
      getList_nodup_of_inv (groupsInv_runSteps steps) v
    have hnodM : ((wsMentioned steps).dedup.filter
        (fun ws => regAfter steps ws v)).Nodup :=
      List.Nodup.filter _ (List.nodup_dedup _)
    have hmem : ∀ a, a ∈ getList (runSteps steps) v ↔
        a ∈ (wsMentioned steps).dedup.filter (fun ws => regAfter steps ws v) := by
      intro a
      simp only [List.mem_filter, List.mem_dedup]
      constructor
      · intro ha
        have hr := (runSteps_mem steps hreg hok v a).mp ha
        exact ⟨regAfter_mem_mentioned steps a v hr, hr⟩
      · intro h2
        exact (runSteps_mem steps hreg hok v a).mpr h2.2
    exact ((List.perm_ext_iff_of_nodup hnodL hnodM).mpr hmem).length_eq
  · intro st ws v u
    have hmeta : (disconnect (disconnect st ws v u) ws v u).connection_metadata =
        (disconnect st ws v u).connection_metadata := by
      rw [metadata_disconnect, metadata_disconnect, dDel_dDel]
    have hses : (disconnect (disconnect st ws v u) ws v u).user_sessions =
        (disconnect st ws v u).user_sessions := by
      rw [sessions_disconnect, sessions_disconnect]
      cases u with
      | none => rfl
      | some uu =>
        dsimp only
        rw [dDel_dDel]
    have hcon : (disconnect (disconnect st ws v u) ws v u).connections =
        (disconnect st ws v u).connections := by
      rw [connections_disconnect (disconnect st ws v u),
        connections_disconnect st]
      cases hl : dLookup st.connections v with
      | none =>
        dsimp only
        rw [hl]
      | some s =>
        dsimp only
        by_cases he : (sDiscard s ws).isEmpty
        · rw [if_pos he, dLookup_dDel_self]
        · rw [if_neg he, dLookup_dSet_self]
          dsimp only
          rw [sDiscard_sDiscard, if_neg he, dSet_dSet]
    exact WSState.ext hcon hses hmeta

/-- Register, then unregister twice, for the C7 witness. -/
def c7Steps : List Step :=
  [⟨Op.reg 1 "a" none, 0, fun _ => true⟩,
   ⟨Op.unreg 1 "a" none, 1, fun _ => true⟩,
   ⟨Op.unreg 1 "a" none, 2, fun _ => true⟩]

/-- C7 witness: the count equation at a concrete register/unregister/
unregister run. -/
theorem c7_witness :
    get_connection_count (runSteps c7Steps) (some "a") =
      ((wsMentioned c7Steps).dedup.filter (fun ws => regAfter c7Steps ws "a")).length :=
  c7_count_and_idempotent_unregister.1 c7Steps "a" (by decide)
    (by
      intro s hs w
      simp only [c7Steps, List.mem_cons, List.not_mem_nil, or_false] at hs
      rcases hs with rfl | rfl | rfl <;> rfl)

/-- C8: every transmission of every operation — the central send primitive
itself, connect's welcome message, the three broadcast entry points, the
error notifier, the inbound-message handler replies and the heartbeat
monitor pings — carries a payload of exactly the three fields `type`,
`data`, `timestamp` (with a string timestamp), because every one of them
goes through the single wrapping site in `send_to_connection`. -/
theorem c8_envelope_all_sends :
    (∀ (st : WSState) (ws : Nat) (m : Msg) (now : Nat) (ok : Nat → Bool),
      ∀ p ∈ (send_to_connection st ws m now ok).2, Shaped p) ∧
    (∀ (st : WSState) (ws : Nat) (v : String) (u : Option String) (now : Nat)
      (ok : Nat → Bool), ∀ p ∈ (connect st ws v u now ok).2, Shaped p) ∧
    (∀ (st : WSState) (v : String) (m : Msg) (now : Nat) (ok : Nat → Bool),
      ∀ p ∈ (broadcast_to_vault st v m now ok).2, Shaped p) ∧
    (∀ (st : WSState) (u : String) (m : Msg) (now : Nat) (ok : Nat → Bool),
      ∀ p ∈ (broadcast_to_user st u m now ok).2, Shaped p) ∧
    (∀ (st : WSState) (m : Msg) (now : Nat) (ok : Nat → Bool),
      ∀ p ∈ (broadcast_to_all st m now ok).2, Shaped p) ∧
    (∀ (st : WSState) (v e : String) (now : Nat) (ok : Nat → Bool),
      ∀ p ∈ (send_error st v e now ok).2, Shaped p) ∧
    (∀ (st : WSState) (ws : Nat) (v : String) (message : Msg) (now : Nat)
      (ok : Nat → Bool) (agents : List JVal),
      ∀ p ∈ (handle_client_message st ws v message now ok agents).2, Shaped p) ∧
    (∀ (st : WSState) (now : Nat) (ok : Nat → Bool),
      ∀ p ∈ (heartbeatScan st now ok).2.2, Shaped p) :=
  ⟨shaped_stc, shaped_connect, shaped_btv, shaped_btu, shaped_bta,
   fun st v e now ok => shaped_btv st v (errorMsg e now) now ok,
   shaped_hcm, shaped_hbScan⟩

/-- C8 witness: the send-primitive clause at a concrete send. -/
theorem c8_witness : Shaped (1, envelope [] 0) :=
  c8_envelope_all_sends.1 initState 1 [] 0 (fun _ => true) (1, envelope [] 0)
    (by simp [stc_txs])

/-- C9: registering a second connection for the same user identifier
overwrites the user's session entry (last-write-wins; a dict stores at most
one channel per user by construction), and a subsequent
`broadcast_to_user` resolves the new channel and delivers exactly to the
connections of that channel (one enveloped copy each, filtered by transport
health). -/
theorem c9_last_write_wins (st : WSState) (ws1 ws2 : Nat) (vA vB u : String)
    (m : Msg) (now : Nat) (ok : Nat → Bool) (hok2 : ok ws2 = true) :
    dLookup ((connect (connect st ws1 vA (some u) now ok).1 ws2 vB (some u)
      now ok).1).user_sessions u = some vB ∧
    (broadcast_to_user (connect (connect st ws1 vA (some u) now ok).1 ws2 vB (some u)
      now ok).1 u m now ok).2 =
      ((getList (connect (connect st ws1 vA (some u) now ok).1 ws2 vB (some u)
        now ok).1 vB).filter ok).map (fun w => (w, envelope m now)) := by
  have hses : dLookup ((connect (connect st ws1 vA (some u) now ok).1 ws2 vB (some u)
      now ok).1).user_sessions u = some vB := by
    rw [sessions_connect_ok _ _ _ _ _ _ hok2]
    exact dLookup_dSet_self _ _ _
  refine ⟨hses, ?_⟩
  simp only [broadcast_to_user, hses]
  exact btv_txs _ _ _ _ _

/-- C9 witness: the theorem at a concrete double registration. -/
theorem c9_witness :
    dLookup ((connect (connect initState 1 "A" (some "u") 0 (fun _ => true)).1 2 "B"
      (some "u") 0 (fun _ => true)).1).user_sessions "u" = some "B" :=
  (c9_last_write_wins initState 1 2 "A" "B" "u" [] 0 (fun _ => true) rfl).1

/-- C10: an inbound message whose string `type` is none of the six
recognized inbound types is answered — on a healthy transport — with
exactly one `error` reply to that connection, whose data carries the
message "Unknown message type: <type>" and the original received message;
nothing is silently dropped. -/
theorem c10_unknown_type_error_reply (st : WSState) (ws : Nat) (v : String)
    (message : Msg) (now : Nat) (ok : Nat → Bool) (agents : List JVal) (t : String)
    (htype : dLookup message "type" = some (.s t))
    (hunrec : t ∉ recognizedTypes) (hok : ok ws = true) :
    (handle_client_message st ws v message now ok agents).2 =
      [(ws, [("type", .s "error"),
             ("data", .obj
               [("message", .s ("Unknown message type: " ++ t)),
                ("received_message", .obj message)]),
             ("timestamp", .s (isoTimestamp now))])] := by
  have h1 : t ≠ "handshake" := fun e => hunrec (by rw [e]; simp [recognizedTypes])
  have h2 : t ≠ "ping" := fun e => hunrec (by rw [e]; simp [recognizedTypes])
  have h3 : t ≠ "pong" := fun e => hunrec (by rw [e]; simp [recognizedTypes])
  have h4 : t ≠ "heartbeat_response" := fun e => hunrec (by rw [e]; simp [recognizedTypes])
  have h5 : t ≠ "vault_update" := fun e => hunrec (by rw [e]; simp [recognizedTypes])
  have h6 : t ≠ "request_status" := fun e => hunrec (by rw [e]; simp [recognizedTypes])
  simp only [handle_client_message, htype, Option.getD_some]
  rw [if_neg h1, if_neg h2, if_neg h3, if_neg h4, if_neg h5, if_neg h6]
  rw [stc_txs, if_pos hok]
  rfl

/-- C10 witness: the theorem at the concrete message of type `bogus`. -/
theorem c10_witness :
    (handle_client_message initState 1 "v" [("type", .s "bogus")] 3 (fun _ => true) []).2 =
      [(1, [("type", .s "error"),
            ("data", .obj
              [("message", .s ("Unknown message type: " ++ "bogus")),
               ("received_message", .obj [("type", .s "bogus")])]),
            ("timestamp", .s (isoTimestamp 3))])] :=
  c10_unknown_type_error_reply initState 1 "v" [("type", .s "bogus")] 3 (fun _ => true)
    [] "bogus" rfl (by decide) rfl

end VPWS
